import Mathlib

/-!
Verification of the NoveLV vocabulary-analysis pipeline (src/flaskr/__init__.py).

Strings are modelled as `List Char` in the character-level code (chunking,
tokenization, filtering) and as `String` in the word-level code (frequency
resolution, classification, statistics).  Machine floats of the source are
modelled as `ℚ`; HTTP interaction is modelled by passing the outcome of each
request (status/body or raised-exception kind) as an explicit argument.
-/

/-- Python whitespace characters, as recognised by `str.strip()` / `str.isspace()`
(used by the source at `__init__.py:793`, `:1015`, `:1030`, `:1083`). -/
def pyIsSpace (c : Char) : Bool :=
  let n := c.toNat
  n == 0x20 || (0x9 ≤ n && n ≤ 0xD) || (0x1C ≤ n && n ≤ 0x1F) || n == 0x85 || n == 0xA0 ||
  n == 0x1680 || (0x2000 ≤ n && n ≤ 0x200A) || n == 0x2028 || n == 0x2029 || n == 0x202F ||
  n == 0x205F || n == 0x3000

/-- Python `str.strip()`: remove leading and trailing whitespace. -/
def pyStrip (s : List Char) : List Char :=
  ((s.dropWhile pyIsSpace).reverse.dropWhile pyIsSpace).reverse

/-- Python `str.rfind(ch, lo)` for a single-character needle: the highest index
`i ≥ lo` with `s[i] = ch` (`none` for Python's `-1`). -/
def rfindFrom (s : List Char) (ch : Char) (lo : Nat) : Option Nat :=
  ((List.range s.length).filter (fun i => decide (lo ≤ i) && (s.getD i ' ' == ch))).getLast?

/-- Sentence-ending punctuation searched first by `_split_text_into_chunks`
(`__init__.py:882`). -/
def sentencePunct : List Char := ['。', '！', '？', '…', '』', '」']

/-- Secondary punctuation (`__init__.py:889`). -/
def secondaryPunct : List Char := ['、', '・', '）', '｝']

/-- Whitespace boundary characters (`__init__.py:896`); the third is the
full-width space. -/
def wsBoundary : List Char := ['\n', ' ', '　']

/-- The Python `for punct in [...]: rfind; if found: break` pattern: return the
result of the first character in candidate-list order whose `rfind` succeeds. -/
def firstHit (s : List Char) (lo : Nat) : List Char → Option Nat
  | [] => none
  | c :: cs =>
    match rfindFrom s c lo with
    | some p => some p
    | none => firstHit s lo cs

/-- The nested `for/else` boundary search of `_split_text_into_chunks`
(`__init__.py:881-900`): sentence punctuation first, then secondary
punctuation, then whitespace. -/
def findBoundary (s : List Char) (lo : Nat) : Option Nat :=
  match firstHit s lo sentencePunct with
  | some p => some p
  | none =>
    match firstHit s lo secondaryPunct with
    | some p => some p
    | none => firstHit s lo wsBoundary

/-- The adjusted `end` of one iteration of the `_split_text_into_chunks` loop
(`__init__.py:870-900`): `end = start + chunk_size` shortened to just after the
boundary found by the backward search over `text[start:end]` from offset
`max(start, end - 200) - start = chunk_size - 200` (truncated subtraction). -/
def nextEnd (text : List Char) (chunkSize start : Nat) : Nat :=
  match findBoundary ((text.drop start).take chunkSize) (chunkSize - 200) with
  | some p => start + p + 1   -- end = start + punct_pos + 1
  | none => start + chunkSize -- no boundary: cut exactly at max_chunk_size

/-- The `while start < len(text)` loop of `_split_text_into_chunks`
(`__init__.py:869-903`), with an explicit fuel bounding the number of
iterations.  For `0 < chunkSize` the loop advances `start` by at least one
position per iteration, so `fuel = text.length` (as supplied by the wrapper
below) makes the model exactly the source loop; for `chunkSize = 0` the source
loop never terminates and the model is not claimed faithful. -/
def splitLoop : Nat → List Char → Nat → Nat → List (List Char)
  | 0, _, _, _ => []
  | fuel + 1, text, chunkSize, start =>
    if start < text.length then
      -- end = start + chunk_size; if end >= len(text): last chunk
      if text.length ≤ start + chunkSize then [text.drop start]
      else
        (text.drop start).take (nextEnd text chunkSize start - start) ::
          splitLoop fuel text chunkSize (nextEnd text chunkSize start)
    else []

/-- `_split_text_into_chunks(text, chunk_size)` (`__init__.py:858-905`). -/
def split_text_into_chunks (text : List Char) (chunkSize : Nat) : List (List Char) :=
  if text.length ≤ chunkSize then [text] else splitLoop text.length text chunkSize 0

/-- The allowlist of common i-adjectives of `_simple_japanese_tokenize`
(`__init__.py:985-998`), in source-literal order (including the source's
duplicate `高い`).  The source stores them in a Python `set` and iterates it in
an unspecified order; since no two distinct entries share a first character, at
most one entry can match at a given position, so every iteration order yields
the same tokens and the literal order is a faithful model. -/
def common_i_adjectives : List (List Char) :=
  ["熱い".toList, "冷たい".toList, "暖かい".toList, "涼しい".toList, "温かい".toList,
   "固い".toList, "柔らかい".toList, "硬い".toList, "軟らかい".toList,
   "重い".toList, "軽い".toList, "厚い".toList, "薄い".toList, "太い".toList, "細い".toList,
   "高い".toList, "低い".toList, "長い".toList, "短い".toList, "広い".toList, "狭い".toList,
   "新しい".toList, "古い".toList, "若い".toList, "美しい".toList, "可愛い".toList,
   "大きい".toList, "小さい".toList, "多い".toList, "少ない".toList,
   "早い".toList, "遅い".toList, "速い".toList, "安い".toList, "高い".toList,
   "良い".toList, "悪い".toList, "正しい".toList, "間違い".toList, "危ない".toList,
   "楽しい".toList, "悲しい".toList, "嬉しい".toList, "苦しい".toList, "痛い".toList,
   "難しい".toList, "易しい".toList, "忙しい".toList, "暇い".toList,
   "面白い".toList, "詰まらない".toList, "珍しい".toList, "普通い".toList,
   "眠い".toList, "疲れい".toList, "元気い".toList, "健康い".toList]

/-- The adjective check `text[i:i+len(adj)] == adj` of `_simple_japanese_tokenize`
(`__init__.py:1005-1010`): the first allowlist entry matching at the current
position. -/
def matchAdj (text : List Char) : Option (List Char) :=
  common_i_adjectives.find? (fun adj => text.take adj.length == adj)

/-- The `while i < len(text)` scan of `_simple_japanese_tokenize`
(`__init__.py:1000-1017`), with fuel bounding the iteration count.  Every
iteration consumes at least one character (every allowlist entry is non-empty),
so `fuel = text.length` makes the model exactly the source loop. -/
def simpleTokLoop : Nat → List Char → List (List Char)
  | 0, _ => []
  | _, [] => []
  | fuel + 1, c :: rest =>
    match matchAdj (c :: rest) with
    | some adj => adj :: simpleTokLoop fuel ((c :: rest).drop adj.length)
    | none =>
      -- single-character fallback; `if char.strip():` skips pure whitespace
      if pyIsSpace c then simpleTokLoop fuel rest
      else [c] :: simpleTokLoop fuel rest

/-- `_simple_japanese_tokenize(text)` (`__init__.py:976-1019`).  (Python `None`
input also returns `[]` via `if not text`; the empty list covers it here.) -/
def simple_japanese_tokenize (text : List Char) : List (List Char) :=
  simpleTokLoop text.length text

/-- JSON values, as produced by `response.json()`. -/
inductive JVal where
  | null
  | bool (b : Bool)
  | num (n : Int)
  | str (s : List Char)
  | arr (xs : List JVal)
  | obj (fields : List (List Char × JVal))

/-- Python `dict.get` on a decoded JSON object: the value of the first field
with the given key. -/
def jGet (fields : List (List Char × JVal)) (k : List Char) : Option JVal :=
  (fields.find? (fun p => p.1 == k)).map (fun p => p.2)

def jKeyText : List Char := "text".toList

def jKeyContent : List Char := "content".toList

/-- `''.join(option.get('text', '') for option in segment if isinstance(option, dict))`
(`__init__.py:946`).  Non-dict options are filtered out; a missing `text` key
contributes the empty string; a non-string `text` value makes `join` raise
`TypeError`, modelled as `.error`. -/
def joinOptionTexts : List JVal → Except Unit (List Char)
  | [] => .ok []
  | o :: rest =>
    match o with
    | .obj fs =>
      match jGet fs jKeyText with
      | none => joinOptionTexts rest
      | some (.str s) =>
        match joinOptionTexts rest with
        | .ok t => .ok (s ++ t)
        | .error e => .error e
      | some _ => .error ()
    | _ => joinOptionTexts rest

/-- The `for i, segment in enumerate(content_array)` body (`__init__.py:942-949`):
a segment contributes its concatenated option texts when it is a non-empty list
and the concatenation is non-empty; other segments are skipped by the
`isinstance(segment, list) and len(segment) > 0` check. -/
def segmentsWords : List JVal → Except Unit (List (List Char))
  | [] => .ok []
  | seg :: rest =>
    match seg with
    | .arr (o :: os) =>
      match joinOptionTexts (o :: os) with
      | .error e => .error e
      | .ok w =>
        match segmentsWords rest with
        | .error e => .error e
        | .ok ws => .ok (if w.isEmpty then ws else w :: ws)
    | _ => segmentsWords rest

/-- Iterating `content_array` (`__init__.py:942`).  Iterating a JSON string or
object visits strings (characters resp. keys), which the
`isinstance(segment, list)` check then skips; iterating a number, boolean or
`null` raises `TypeError`, caught by the enclosing handler. -/
def contentWords : JVal → Except Unit (List (List Char))
  | .arr segs => segmentsWords segs
  | .str _ => .ok []
  | .obj _ => .ok []
  | _ => .error ()

/-- The `for response_item in result` loop (`__init__.py:938-949`): only dict
items carrying a `content` key contribute words. -/
def itemsWords : List JVal → Except Unit (List (List Char))
  | [] => .ok []
  | item :: rest =>
    match item with
    | .obj fs =>
      match jGet fs jKeyContent with
      | some content =>
        match contentWords content with
        | .error e => .error e
        | .ok ws =>
          match itemsWords rest with
          | .error e => .error e
          | .ok ws2 => .ok (ws ++ ws2)
      | none => itemsWords rest
    | _ => itemsWords rest

/-- The response-parsing section of `_tokenize_single_chunk`
(`__init__.py:932-958`).  The primary branch requires a truthy (non-empty)
JSON array; the `elif isinstance(result, list)` compatibility branch is
therefore reachable only for the empty array and yields no words.  A non-empty
JSON object or string satisfies neither branch (`words` stays `[]`); a truthy
number or `true` makes `len(result)` raise `TypeError`, caught by the
enclosing handler (modelled as `.error`). -/
def extractWords : JVal → Except Unit (List (List Char))
  | .arr [] => .ok []
  | .arr (x :: xs) => itemsWords (x :: xs)
  | .obj _ => .ok []
  | .str _ => .ok []
  | .null => .ok []
  | .bool b => if b then .error () else .ok []
  | .num n => if n == 0 then .ok [] else .error ()

/-- The outcome of one `requests.post` call to the tokenize endpoint as seen by
the `try/except` blocks of `_tokenize_single_chunk` (`__init__.py:925-971`):
either a response (status code plus decoded JSON body, `none` when
`response.json()` raises) or one of the caught exception kinds. -/
inductive ApiResult where
  | ok (status : Nat) (body : Option JVal)
  | timeout
  | connectionError
  | requestError
  | otherException

/-- `true` exactly for the raised-exception outcomes (the four `except` arms of
`_tokenize_single_chunk`, `__init__.py:964-971`). -/
def isExceptionOutcome : ApiResult → Bool
  | .ok _ _ => false
  | _ => true

/-- `_tokenize_single_chunk(text)` (`__init__.py:907-974`), returning the
source's `(words, success_flag)` pair.  The `active_yomitan_operations`
counter (an observability affordance incremented and decremented around the
call) is not modelled; the request parameters (`scanLength`) are absorbed into
the explicit outcome argument. -/
def tokenize_single_chunk (text : List Char) (api : ApiResult) : List (List Char) × Bool :=
  match api with
  | .ok status body =>
    if status == 200 then
      match body with
      | some j =>
        match extractWords j with
        | .ok ws => (ws, true)              -- return words, True
        | .error _ => (simple_japanese_tokenize text, true)  -- parse exception: fallback
      | none => (simple_japanese_tokenize text, true)        -- response.json() raised
    else ([], false)                        -- non-200: return [], False
  | _ => (simple_japanese_tokenize text, true)  -- Timeout/ConnectionError/RequestException/Exception

/-- The guard `not text or not text.strip()` (`__init__.py:793`); the input is
`none` when the caller passes Python `None`. -/
def pyBlank : Option (List Char) → Bool
  | none => true
  | some t => t.isEmpty || (pyStrip t).isEmpty

/-- `tokenize_with_yomitan_api(text, chunk_size)` (`__init__.py:782-856`), with
the segmentation service modelled as `api`, a map from posted chunk text to
request outcome.  Besides the source's `(words, success)` result the model
returns the list of texts posted to the service — `_tokenize_single_chunk`
posts exactly one request per call, unconditionally — so "no request issued"
is visible in the result.  Progress reporting (writes to `progress_tracker`)
is not modelled. -/
def tokenize_with_yomitan_api (text : Option (List Char)) (chunkSize : Nat)
    (api : List Char → ApiResult) : (List (List Char) × Bool) × List (List Char) :=
  match text with
  | none => (([], true), [])
  | some t =>
    if t.isEmpty || (pyStrip t).isEmpty then (([], true), [])
    else if t.length ≤ chunkSize then (tokenize_single_chunk t (api t), [t])
    else
      let chunks := split_text_into_chunks t chunkSize
      let allWords := chunks.foldl (fun acc chunk =>
        let r := tokenize_single_chunk chunk (api chunk)
        if r.2 then acc ++ r.1 else acc) []
      ((allWords, decide (0 < allWords.length)), chunks)

/-- Hiragana block, regex `[぀-ゟ]` (`__init__.py:1047`, `:1058`). -/
def isHiragana (c : Char) : Bool := 0x3040 ≤ c.toNat && c.toNat ≤ 0x309F

/-- Katakana block, regex `[゠-ヿ]` (`__init__.py:1054`). -/
def isKatakana (c : Char) : Bool := 0x30A0 ≤ c.toNat && c.toNat ≤ 0x30FF

/-- CJK ideograph range, regex `[一-龯]` (`__init__.py:1071`). -/
def isCjkIdeograph (c : Char) : Bool := 0x4E00 ≤ c.toNat && c.toNat ≤ 0x9FAF

/-- A Japanese content character (`__init__.py:1071`). -/
def isJapaneseChar (c : Char) : Bool := isHiragana c || isKatakana c || isCjkIdeograph c

/-- The punctuation/symbol/decorative character class of
`filter_japanese_tokens` — the regex classes at `__init__.py:1034` and `:1038`
contain exactly the same characters: the explicit decorative characters,
regex `\s` (Unicode whitespace), `-`, and the blocks U+2000–206F,
U+2E00–2E7F, U+3000–303F, U+FF00–FFEF. -/
def symbolChar (c : Char) : Bool :=
  "。、！？「」『』（）・…ー～〜♡♥★☆◇◆■□▪▫●○◎▲△▼▽◀▶▲▼←→↑↓♪♫※".toList.contains c ||
  pyIsSpace c || c == '-' ||
  (0x2000 ≤ c.toNat && c.toNat ≤ 0x206F) || (0x2E00 ≤ c.toNat && c.toNat ≤ 0x2E7F) ||
  (0x3000 ≤ c.toNat && c.toNat ≤ 0x303F) || (0xFF00 ≤ c.toNat && c.toNat ≤ 0xFFEF)

/-- The single-character particles/auxiliary fragments dropped at
`__init__.py:1043` (the source string literal, duplicate `を` included). -/
def particleChars : List Char := "はをにがでとやかのもてだよねなをれしたっつくぐすむぶぬ".toList

/-- Meaningful single hiragana exempted from the single-hiragana drop
(`__init__.py:1049`). -/
def importantSingle : List Char := "いうきくしすつぬふむゆる".toList

/-- Complete short hiragana words exempted from the length-≤2 hiragana drop
(`__init__.py:1060-1062`). -/
def allowedShortWords : List (List Char) :=
  ["です".toList, "ます".toList, "この".toList, "その".toList, "あの".toList, "どの".toList,
   "これ".toList, "それ".toList, "あれ".toList, "どれ".toList, "から".toList, "まで".toList,
   "より".toList, "など".toList, "でも".toList, "もう".toList, "まだ".toList, "もの".toList,
   "こと".toList, "とき".toList, "ため".toList, "ごと".toList, "けど".toList]

/-- Bare conjugation-ending characters, regex `^[っつくぐすむぶぬたるれ]{1,2}$`
(`__init__.py:1067`). -/
def conjEndChars : List Char := "っつくぐすむぶぬたるれ".toList

/-- The per-token keep/drop decision of `filter_japanese_tokens`
(`__init__.py:1028-1072`), with the drop conditions in source order.  The
70%-symbol threshold `symbol_count >= len(word) * 0.7` is modelled over ℚ as
`10 * symbol_count ≥ 7 * len`; the source computes `len(word) * 0.7` in
binary floating point, which can exceed the rational value by one ulp when
`7 * len` is divisible by 10 — no claim depends on that boundary. -/
def keepToken (w : List Char) : Bool :=
  -- skip empty or whitespace-only tokens (`not word or not word.strip()`)
  if w.isEmpty || w.all pyIsSpace then false
  -- skip pure punctuation/symbol/decorative tokens (regex `^[...]+$`)
  else if w.all symbolChar then false
  -- skip tokens that are at least 70% symbols/punctuation
  else if 10 * (w.filter symbolChar).length ≥ 7 * w.length then false
  -- skip single-character particles and auxiliary verbs
  else if w.length == 1 && particleChars.contains (w.headD ' ') then false
  -- skip single hiragana characters, except the important ones
  else if w.length == 1 && isHiragana (w.headD ' ') && !importantSingle.contains (w.headD ' ')
    then false
  -- skip single katakana characters
  else if w.length == 1 && isKatakana (w.headD ' ') then false
  -- skip hiragana fragments of length ≤ 2 unless allowlisted
  else if w.length ≤ 2 && w.all isHiragana && !allowedShortWords.contains w then false
  -- skip bare conjugation endings (`{1,2}` of the ending characters)
  else if w.length ≤ 2 && w.all (fun c => conjEndChars.contains c) then false
  -- keep tokens containing Japanese content OR containing no Japanese at all
  else w.any isJapaneseChar || !w.all isJapaneseChar

/-- `filter_japanese_tokens(words)` (`__init__.py:1021-1074`): the source's
append-if loop is exactly an order-preserving filter by `keepToken`. -/
def filter_japanese_tokens (words : List (List Char)) : List (List Char) :=
  words.filter keepToken

/-- `get_star_rating_from_rank(rank)` (`__init__.py:522-537`); `none` models
Python `None`. -/
def get_star_rating_from_rank (rank : Option Int) : Nat :=
  match rank with
  | none => 0
  | some r =>
    if r ≤ 1500 then 5
    else if r ≤ 5000 then 4
    else if r ≤ 15000 then 3
    else if r ≤ 30000 then 2
    else if r ≤ 60000 then 1
    else 0

/-- The `star_from_rank` template filter (`__init__.py:45-61`), a second copy
of the same bucket logic. -/
def star_from_rank_filter (rank : Option Int) : Nat :=
  match rank with
  | none => 0
  | some r =>
    if r ≤ 1500 then 5
    else if r ≤ 5000 then 4
    else if r ≤ 15000 then 3
    else if r ≤ 30000 then 2
    else if r ≤ 60000 then 1
    else 0

/-- One headword of a `termEntries` dictionary entry; the `term` and `reading`
keys are optional (`__init__.py:167-173`). -/
structure Headword where
  term : Option String
  reading : Option String

/-- One frequency item of a dictionary entry.  `frequency = none` models an
item that is not a dict or lacks a `frequency` key (skipped by the source's
`isinstance`/`in` guard, `__init__.py:178`); `dictionary = none` models a
missing `dictionary` key (source default `'Unknown'`, `__init__.py:180`). -/
structure FreqItem where
  frequency : Option Int
  dictionary : Option String

/-- One dictionary entry of the `termEntries` response.  An absent
`headwords`/`frequencies` key is modelled as the empty list — the source's
truthiness guards (`'headwords' in entry and entry['headwords']`,
`__init__.py:165`, `:176`) treat the two identically. -/
structure DictEntry where
  headwords : List Headword
  frequencies : List FreqItem

/-- The exact-match test of `get_yomitan_frequency_data`
(`__init__.py:165-173`): some headword's `term` or `reading` equals the input
word; no kana-to-kanji conversion. -/
def entryExactMatch (word : String) (e : DictEntry) : Bool :=
  e.headwords.any (fun h => h.term == some word || h.reading == some word)

/-- One step of the `for freq_item in entry['frequencies']` loop
(`__init__.py:177-185`): keep the lowest rank seen so far; `rank < best_rank`
is strict, so the first source attaining the minimum wins ties. -/
def scanFreqItem (best : Option (Int × String)) (fi : FreqItem) : Option (Int × String) :=
  match fi.frequency with
  | none => best
  | some rank =>
    match best with
    | none => some (rank, fi.dictionary.getD ("Unknown"))
    | some (br, bs) =>
      if rank < br then some (rank, fi.dictionary.getD ("Unknown")) else some (br, bs)

/-- One step of the `for entry in data['dictionaryEntries']` loop
(`__init__.py:163-185`): only entries with an exactly matching headword
contribute their frequency items.  (The source's non-emptiness guards are
subsumed: folding over an empty `frequencies` list is the identity and `any`
over an empty `headwords` list is `false`.) -/
def scanEntry (word : String) (best : Option (Int × String)) (e : DictEntry) :
    Option (Int × String) :=
  if entryExactMatch word e then e.frequencies.foldl scanFreqItem best else best

/-- The `(best_rank, best_source)` pair computed over a `dictionaryEntries`
list (`__init__.py:160-185`), `none` when no qualifying frequency exists. -/
def bestFrequency (word : String) (entries : List DictEntry) : Option (Int × String) :=
  entries.foldl (scanEntry word) none

/-- The resolver's return value (`__init__.py:126-129`); Python's
`{'found': False}` has no rank/source keys, modelled as `none` fields (the
caller reads them with `.get`, `__init__.py:1186-1187`). -/
structure FreqRecord where
  rank : Option Int
  source : Option String
  found : Bool
deriving DecidableEq

def freqNotFound : FreqRecord := { rank := none, source := none, found := false }

/-- The outcome of the `termEntries` request as seen by
`get_yomitan_frequency_data`: a response (status plus the decoded
`dictionaryEntries` list, `none` when the body is falsy or lacks the key,
`__init__.py:156-157`) or a raised exception (both `except` arms return
`{'found': False}`, `__init__.py:206-211`). -/
inductive FreqApiResult where
  | ok (status : Nat) (entries : Option (List DictEntry))
  | exn

/-- `get_yomitan_frequency_data(word)` (`__init__.py:118-211`) with the cache
(`frequency_cache`, an insertion-ordered association list) and the request
outcome passed explicitly; returns the record together with the updated cache.
Results are cached only when found (`__init__.py:187-196`). -/
def get_yomitan_frequency_data (word : String) (cache : List (String × Int × String))
    (api : FreqApiResult) : FreqRecord × List (String × Int × String) :=
  match cache.find? (fun p => p.1 == word) with
  | some p => ({ rank := some p.2.1, source := some p.2.2, found := true }, cache)
  | none =>
    match api with
    | .exn => (freqNotFound, cache)
    | .ok status entriesOpt =>
      if status == 200 then
        match entriesOpt with
        | none => (freqNotFound, cache)
        | some entries =>
          match bestFrequency word entries with
          | some (r, s) =>
            ({ rank := some r, source := some s, found := true }, cache ++ [(word, r, s)])
          | none => (freqNotFound, cache)
      else (freqNotFound, cache)

/-- The ranks carried by a `frequencies` list (items with a `frequency` key). -/
def ranksOfFreqs (fis : List FreqItem) : List Int :=
  fis.filterMap (fun fi => fi.frequency)

/-- The (rank, source) pairs carried by a `frequencies` list, with the
source's `'Unknown'` default. -/
def pairsOfFreqs (fis : List FreqItem) : List (Int × String) :=
  fis.filterMap (fun fi => fi.frequency.map (fun r => (r, fi.dictionary.getD ("Unknown"))))

/-- Specification vocabulary for C4: the frequency ranks attached to entries
whose headword exactly matches the word. -/
def matchingRanks (word : String) (entries : List DictEntry) : List Int :=
  (entries.filter (entryExactMatch word)).flatMap (fun e => ranksOfFreqs e.frequencies)

/-- Specification vocabulary for C4: the (rank, source) pairs attached to
entries whose headword exactly matches the word. -/
def matchingPairs (word : String) (entries : List DictEntry) : List (Int × String) :=
  (entries.filter (entryExactMatch word)).flatMap (fun e => pairsOfFreqs e.frequencies)

/-- The spec §8 frequency-exact-match scenario: one entry whose headword term
is 猫 with frequency 500 from source X, and one entry for the different
headword 猫科 with frequency 10. -/
def catScenarioEntries : List DictEntry :=
  [{ headwords := [{ term := some ("猫"), reading := none }],
     frequencies := [{ frequency := some 500, dictionary := some ("X") }] },
   { headwords := [{ term := some ("猫科"), reading := none }],
     frequencies := [{ frequency := some 10, dictionary := some ("Y") }] }]

/-- One step of the accumulating minimum, mirroring how `best_rank` evolves. -/
def minStep (ob : Option Int) (r : Int) : Option Int :=
  match ob with
  | none => some r
  | some br => some (min br r)

/-- The accumulating minimum over a rank list. -/
def foldMinOpt (b : Option Int) (l : List Int) : Option Int :=
  l.foldl minStep b

/-- The per-unique-word record built by `analyze_text_vocabulary`
(`__init__.py:1182-1191`).  The debugging-only `original_word` /
`original_words` fields (read by nothing in the pipeline) are not modelled. -/
structure WordEntry where
  word : String
  count : Nat
  has_frequency : Bool
  rank : Option Int
  source : Option String
  in_vocabulary : Bool
  is_ignored : Bool
deriving DecidableEq

/-- Word-entry construction (`__init__.py:1176-1191`), with the frequency
resolver abstracted as a map from word to record (the per-word result of
`get_yomitan_frequency_data`). -/
def mkWordEntry (freq : String → FreqRecord) (vocab ignored : List String)
    (w : String) (c : Nat) : WordEntry :=
  { word := w, count := c,
    has_frequency := (freq w).found,
    rank := (freq w).rank,
    source := (freq w).source,
    in_vocabulary := vocab.contains w,
    is_ignored := ignored.contains w }

/-- The classification loop of `analyze_text_vocabulary`
(`__init__.py:1165-1201`): each `(word, count)` pair of the `Counter` yields
one entry, appended to the ignored list when the word is in the ignored set,
else to the known list when it is in the vocabulary set, else to the unknown
list; returns `(known, unknown, ignored)` in iteration order. -/
def classifyLoop (freq : String → FreqRecord) (vocab ignored : List String) :
    List (String × Nat) → List WordEntry × List WordEntry × List WordEntry
  | [] => ([], [], [])
  | (w, c) :: rest =>
    let e := mkWordEntry freq vocab ignored w c
    let r := classifyLoop freq vocab ignored rest
    if ignored.contains w then (r.1, r.2.1, e :: r.2.2)
    else if vocab.contains w then (e :: r.1, r.2.1, r.2.2)
    else (r.1, e :: r.2.1, r.2.2)

/-- The category decision of the loop above (`__init__.py:1196-1201`):
ignored wins over known, everything else is unknown. -/
inductive WordCategory where
  | known
  | ignored
  | unknown
deriving DecidableEq

def classifyWord (vocab ignored : List String) (w : String) : WordCategory :=
  if ignored.contains w then .ignored
  else if vocab.contains w then .known
  else .unknown

/-- One dict insertion of `deduplicate_word_list` (`__init__.py:1207-1221`):
if the display word is already present, add the incoming count into the stored
entry (keeping its other fields); otherwise append a copy.  The association
list models the insertion-ordered Python dict; the debugging-only
`original_words` accumulation is not modelled. -/
def insertEntry (acc : List WordEntry) (e : WordEntry) : List WordEntry :=
  match acc with
  | [] => [e]
  | x :: xs =>
    if x.word == e.word then { x with count := x.count + e.count } :: xs
    else x :: insertEntry xs e

/-- `deduplicate_word_list(word_list)` (`__init__.py:1205-1223`). -/
def deduplicate_word_list (l : List WordEntry) : List WordEntry :=
  l.foldl insertEntry []

/-- `sum(item['count'] for item in ...)` (`__init__.py:1237-1239`). -/
def sumCounts (l : List WordEntry) : Nat :=
  (l.map (fun e => e.count)).sum

/-- Python `list.sort(key=lambda x: x['count'], reverse=True)`
(`__init__.py:1231-1234`): a stable descending sort by count. -/
def sortByCountDesc (l : List WordEntry) : List WordEntry :=
  l.mergeSort (fun a b => decide (b.count ≤ a.count))

/-- `calculate_difficulty_level(comprehension_rate)` (`__init__.py:1258-1268`).
The returned labels carry star prefixes: `1★ Beginner` … `5★ Expert`. -/
def calculate_difficulty_level (rate : ℚ) : String :=
  if rate ≥ 95 then "1★ Beginner"
  else if rate ≥ 85 then "2★ Elementary"
  else if rate ≥ 75 then "3★ Intermediate"
  else if rate ≥ 65 then "4★ Advanced"
  else "5★ Expert"

/-- The aggregate fields of the `analyze_text_vocabulary` result relevant to
the claims (`__init__.py:1272-1291`). -/
structure AnalysisOut where
  known_words : List WordEntry
  unknown_words : List WordEntry
  ignored_words : List WordEntry
  known_word_count : Nat
  unknown_word_count : Nat
  ignored_word_count : Nat
  comprehension_rate : ℚ
  difficulty_level : String

/-- The classification/statistics section of `analyze_text_vocabulary`
(`__init__.py:1154-1291`), from the `Counter` word counts to the returned
aggregates.  Following the source: the known and unknown lists are
deduplicated, the ignored list is not (`__init__.py:1226-1228`); all three are
sorted by descending count; the comprehension rate divides the known
occurrence total by the known+unknown total (ignored occurrences excluded)
when that total is positive, else 0 (`__init__.py:1236-1243`); the float
arithmetic of the source is modelled over ℚ. -/
def analyze_text_vocabulary (freq : String → FreqRecord) (vocab ignored : List String)
    (wordCounts : List (String × Nat)) : AnalysisOut :=
  let cls := classifyLoop freq vocab ignored wordCounts
  let kn := sortByCountDesc (deduplicate_word_list cls.1)
  let un := sortByCountDesc (deduplicate_word_list cls.2.1)
  let ig := sortByCountDesc cls.2.2
  let k := sumCounts kn
  let u := sumCounts un
  let total := k + u
  let rate : ℚ := if 0 < total then (k : ℚ) / (total : ℚ) * 100 else 0
  { known_words := kn, unknown_words := un, ignored_words := ig,
    known_word_count := k, unknown_word_count := u,
    ignored_word_count := sumCounts ig,
    comprehension_rate := rate,
    difficulty_level := calculate_difficulty_level rate }

/-- Specification vocabulary for C2: total occurrences of words classified
known (in the vocabulary set and not ignored), read directly off the word
counts. -/
def knownOccurrences (vocab ignored : List String) (wcs : List (String × Nat)) : Nat :=
  ((wcs.filter (fun p => !ignored.contains p.1 && vocab.contains p.1)).map
    (fun p => p.2)).sum

/-- Specification vocabulary for C2: total occurrences of words classified
unknown (neither ignored nor in the vocabulary set). -/
def unknownOccurrences (vocab ignored : List String) (wcs : List (String × Nat)) : Nat :=
  ((wcs.filter (fun p => !ignored.contains p.1 && !vocab.contains p.1)).map
    (fun p => p.2)).sum

/-- A trivial frequency oracle for concrete instances: nothing found. -/
def noFreq : String → FreqRecord := fun _ => freqNotFound

/-- The spec §8 comprehension scenario as word counts: 80 known occurrences,
20 unknown, 100 ignored. -/
def c2WordCounts : List (String × Nat) := [("k", 80), ("u", 20), ("i", 100)]

theorem rfindFrom_lt {s : List Char} {ch : Char} {lo p : Nat}
    (h : rfindFrom s ch lo = some p) : p < s.length := by
  have hmem := List.mem_of_mem_getLast? (l := ((List.range s.length).filter
    (fun i => decide (lo ≤ i) && (s.getD i ' ' == ch)))) (by simpa [rfindFrom] using h)
  have := List.mem_range.mp (List.mem_of_mem_filter hmem)
  exact this

theorem firstHit_lt {s : List Char} {lo p : Nat} :
    ∀ {cands : List Char}, firstHit s lo cands = some p → p < s.length := by
  intro cands
  induction cands with
  | nil => intro h; simp [firstHit] at h
  | cons c cs ih =>
    intro h
    rw [firstHit] at h
    rcases hf : rfindFrom s c lo with _ | q
    · rw [hf] at h; exact ih h
    · rw [hf] at h; cases h; exact rfindFrom_lt hf

theorem findBoundary_lt {s : List Char} {lo p : Nat}
    (h : findBoundary s lo = some p) : p < s.length := by
  unfold findBoundary at h
  rcases h1 : firstHit s lo sentencePunct with _ | q
  · rw [h1] at h
    rcases h2 : firstHit s lo secondaryPunct with _ | q
    · rw [h2] at h; exact firstHit_lt h
    · rw [h2] at h; cases h; exact firstHit_lt h2
  · rw [h1] at h; cases h; exact firstHit_lt h1

theorem nextEnd_gt {text : List Char} {chunkSize : Nat} (hcs : 0 < chunkSize)
    (start : Nat) : start < nextEnd text chunkSize start := by
  unfold nextEnd
  split
  · omega
  · omega

theorem nextEnd_le {text : List Char} (chunkSize start : Nat) :
    nextEnd text chunkSize start ≤ start + chunkSize := by
  unfold nextEnd
  split
  · next p hb =>
    have hp := findBoundary_lt hb
    rw [List.length_take, List.length_drop] at hp
    omega
  · omega

theorem splitLoop_flatten (text : List Char) (chunkSize : Nat) (hcs : 0 < chunkSize) :
    ∀ fuel start, text.length - start ≤ fuel →
      (splitLoop fuel text chunkSize start).flatten = text.drop start := by
  intro fuel
  induction fuel with
  | zero =>
    intro start h
    rw [splitLoop, List.drop_eq_nil_of_le (by omega)]
    rfl
  | succ n ih =>
    intro start h
    rw [splitLoop]
    by_cases hlt : start < text.length
    · rw [if_pos hlt]
      by_cases hend : text.length ≤ start + chunkSize
      · rw [if_pos hend]; simp
      · rw [if_neg hend]
        have hgt := @nextEnd_gt text chunkSize hcs start
        have hle := @nextEnd_le text chunkSize start
        have hih := ih (nextEnd text chunkSize start) (by omega)
        rw [List.flatten_cons, hih]
        have hdd : text.drop (nextEnd text chunkSize start) =
            (text.drop start).drop (nextEnd text chunkSize start - start) := by
          rw [List.drop_drop]; congr 1; omega
        rw [hdd, List.take_append_drop]
    · rw [if_neg hlt, List.drop_eq_nil_of_le (by omega)]
      rfl

theorem splitLoop_length_le (text : List Char) (chunkSize : Nat) :
    ∀ fuel start chunk, chunk ∈ splitLoop fuel text chunkSize start →
      chunk.length ≤ chunkSize := by
  intro fuel
  induction fuel with
  | zero => intro start chunk h; rw [splitLoop] at h; simp at h
  | succ n ih =>
    intro start chunk h
    rw [splitLoop] at h
    by_cases hlt : start < text.length
    · rw [if_pos hlt] at h
      by_cases hend : text.length ≤ start + chunkSize
      · rw [if_pos hend] at h
        simp only [List.mem_singleton] at h
        subst h
        rw [List.length_drop]
        omega
      · rw [if_neg hend] at h
        rcases List.mem_cons.mp h with h1 | h2
        · subst h1
          have hle := @nextEnd_le text chunkSize start
          rw [List.length_take]
          omega
        · exact ih _ chunk h2
    · rw [if_neg hlt] at h; simp at h

theorem splitLoop_ne_nil (text : List Char) (chunkSize : Nat) (hcs : 0 < chunkSize) :
    ∀ fuel start chunk, chunk ∈ splitLoop fuel text chunkSize start → chunk ≠ [] := by
  intro fuel
  induction fuel with
  | zero => intro start chunk h; rw [splitLoop] at h; simp at h
  | succ n ih =>
    intro start chunk h
    rw [splitLoop] at h
    by_cases hlt : start < text.length
    · rw [if_pos hlt] at h
      by_cases hend : text.length ≤ start + chunkSize
      · rw [if_pos hend] at h
        simp only [List.mem_singleton] at h
        subst h
        apply List.ne_nil_of_length_pos
        rw [List.length_drop]
        omega
      · rw [if_neg hend] at h
        rcases List.mem_cons.mp h with h1 | h2
        · subst h1
          have hgt := @nextEnd_gt text chunkSize hcs start
          apply List.ne_nil_of_length_pos
          rw [List.length_take, List.length_drop]
          omega
        · exact ih _ chunk h2
    · rw [if_neg hlt] at h; simp at h

/-- C3: for every input text and every positive `max_chunk_size`, concatenating
the chunks returned by `_split_text_into_chunks` in order reproduces the input
text exactly, and every returned chunk's length is at most `max_chunk_size`. -/
theorem chunk_round_trip (text : List Char) (chunkSize : Nat) (hcs : 0 < chunkSize) :
    (split_text_into_chunks text chunkSize).flatten = text ∧
      ∀ chunk ∈ split_text_into_chunks text chunkSize, chunk.length ≤ chunkSize := by
  unfold split_text_into_chunks
  by_cases hle : text.length ≤ chunkSize
  · rw [if_pos hle]
    refine ⟨by simp, ?_⟩
    intro chunk hc
    simp only [List.mem_singleton] at hc
    subst hc
    exact hle
  · rw [if_neg hle]
    refine ⟨?_, fun chunk hc => splitLoop_length_le text chunkSize text.length 0 chunk hc⟩
    have := splitLoop_flatten text chunkSize hcs text.length 0 (by omega)
    simpa using this

/-- Witness for C3 at a concrete input. -/
theorem chunk_round_trip_witness :
    0 < 3 ∧ ((split_text_into_chunks ['a', 'b', 'c', 'd'] 3).flatten = ['a', 'b', 'c', 'd'] ∧
      ∀ chunk ∈ split_text_into_chunks ['a', 'b', 'c', 'd'] 3, chunk.length ≤ 3) :=
  ⟨by decide, chunk_round_trip ['a', 'b', 'c', 'd'] 3 (by decide)⟩

/-- C7 counterexample: on empty input `_split_text_into_chunks` returns one
empty chunk, not zero chunks. -/
theorem chunk_empty_input_counterexample :
    split_text_into_chunks [] 300 = [[]] ∧ ([[]] : List (List Char)) ≠ [] := by
  constructor
  · rfl
  · decide

/-- C7 amended: for every positive `max_chunk_size`, the splitter never returns
an empty chunk when the input text is non-empty; on empty input it returns a
single chunk holding the empty text (the source returns `[text]` whenever
`len(text) <= chunk_size`, `__init__.py:863-864`). -/
theorem chunk_nonempty_amended (text : List Char) (chunkSize : Nat) (hcs : 0 < chunkSize) :
    (text ≠ [] → ∀ chunk ∈ split_text_into_chunks text chunkSize, chunk ≠ []) ∧
      (text = [] → split_text_into_chunks text chunkSize = [[]]) := by
  constructor
  · intro hne chunk hc
    unfold split_text_into_chunks at hc
    by_cases hle : text.length ≤ chunkSize
    · rw [if_pos hle] at hc
      simp only [List.mem_singleton] at hc
      subst hc
      exact hne
    · rw [if_neg hle] at hc
      exact splitLoop_ne_nil text chunkSize hcs text.length 0 chunk hc
  · intro he
    subst he
    unfold split_text_into_chunks
    rw [if_pos (by simp)]

/-- Witness for the amended C7 at concrete inputs. -/
theorem chunk_nonempty_amended_witness :
    (∀ chunk ∈ split_text_into_chunks ['あ', '。', 'い'] 2, chunk ≠ []) ∧
      split_text_into_chunks ([] : List Char) 2 = [[]] :=
  ⟨(chunk_nonempty_amended ['あ', '。', 'い'] 2 (by decide)).1 (by decide),
    (chunk_nonempty_amended [] 2 (by decide)).2 rfl⟩

/-- C1 counterexample: on a non-200 HTTP status, `_tokenize_single_chunk` does
report failure — it returns `([], succeeded = false)`, not the fallback
tokenizer's tokens with `succeeded = true`. -/
theorem tokenize_chunk_non200_counterexample :
    tokenize_single_chunk ['猫'] (ApiResult.ok 404 (some JVal.null)) = ([], false) ∧
      (([], false) : List (List Char) × Bool) ≠ (simple_japanese_tokenize ['猫'], true) := by
  constructor
  · rfl
  · decide

/-- C1 amended: on timeout, connection error, or any other raised exception,
`_tokenize_single_chunk` returns the fallback tokenizer's tokens for the chunk
with `succeeded = true`; on a non-200 HTTP status, however, it returns the
empty token list with `succeeded = false`. -/
theorem tokenize_chunk_error_handling (text : List Char) (api : ApiResult) :
    (isExceptionOutcome api = true →
      tokenize_single_chunk text api = (simple_japanese_tokenize text, true)) ∧
    (∀ status body, status ≠ 200 →
      tokenize_single_chunk text (ApiResult.ok status body) = ([], false)) := by
  constructor
  · intro h
    cases api with
    | ok s b => simp [isExceptionOutcome] at h
    | timeout => rfl
    | connectionError => rfl
    | requestError => rfl
    | otherException => rfl
  · intro status body hs
    have hb : (status == 200) = false := by simpa using hs
    simp [tokenize_single_chunk, hb]

/-- Witness for the amended C1 at concrete inputs. -/
theorem tokenize_chunk_error_handling_witness :
    tokenize_single_chunk ['猫'] ApiResult.timeout = (simple_japanese_tokenize ['猫'], true) ∧
      tokenize_single_chunk ['猫'] (ApiResult.ok 500 none) = ([], false) :=
  ⟨(tokenize_chunk_error_handling ['猫'] ApiResult.timeout).1 rfl,
    (tokenize_chunk_error_handling ['猫'] ApiResult.timeout).2 500 none (by decide)⟩

/-- C10: for input text that is `None`, empty, or consists only of whitespace,
`tokenize_with_yomitan_api` returns the empty token list with
`succeeded = true`, issuing no request to the segmentation service. -/
theorem tokenize_blank_input (text : Option (List Char)) (chunkSize : Nat)
    (api : List Char → ApiResult) (h : pyBlank text = true) :
    tokenize_with_yomitan_api text chunkSize api = (([], true), []) := by
  cases text with
  | none => rfl
  | some t =>
    have ht : (t.isEmpty || (pyStrip t).isEmpty) = true := h
    simp [tokenize_with_yomitan_api, ht]

/-- Witness for C10 on a whitespace-only text. -/
theorem tokenize_blank_input_witness :
    tokenize_with_yomitan_api (some [' ', '　']) 300 (fun _ => ApiResult.timeout) =
      (([], true), []) :=
  tokenize_blank_input (some [' ', '　']) 300 (fun _ => ApiResult.timeout) (by decide)

/-- C9: token filtering is idempotent — filtering a filtered list changes
nothing — and the filter only drops tokens: its output is an order-preserving
sublist of its input (nothing is added or reordered). -/
theorem filter_tokens_idempotent (words : List (List Char)) :
    filter_japanese_tokens (filter_japanese_tokens words) = filter_japanese_tokens words ∧
      (filter_japanese_tokens words).Sublist words := by
  constructor
  · unfold filter_japanese_tokens
    rw [List.filter_filter]
    simp
  · exact List.filter_sublist words

theorem foldl_scanEntry_filter (word : String) :
    ∀ (entries : List DictEntry) (b : Option (Int × String)),
      entries.foldl (scanEntry word) b =
        (entries.filter (entryExactMatch word)).foldl (scanEntry word) b := by
  intro entries
  induction entries with
  | nil => intro b; rfl
  | cons e rest ih =>
    intro b
    by_cases he : entryExactMatch word e = true
    · rw [List.foldl_cons, List.filter_cons_of_pos he, List.foldl_cons, ih]
    · have hb : scanEntry word b e = b := by
        unfold scanEntry
        rw [if_neg he]
      rw [List.foldl_cons, hb, List.filter_cons_of_neg he, ih]

theorem scanFreqItem_fst (fi : FreqItem) (b : Option (Int × String)) :
    ∀ r, fi.frequency = some r →
      (scanFreqItem b fi).map Prod.fst = minStep (b.map Prod.fst) r := by
  intro r hf
  rcases b with _ | ⟨br, bs⟩
  · simp [scanFreqItem, hf, minStep]
  · by_cases hlt : r < br
    · simp [scanFreqItem, hf, hlt, minStep, min_eq_right (le_of_lt hlt)]
    · simp [scanFreqItem, hf, hlt, minStep, min_eq_left (le_of_not_lt hlt)]

theorem foldl_scanFreqItem_fst :
    ∀ (fis : List FreqItem) (b : Option (Int × String)),
      (fis.foldl scanFreqItem b).map Prod.fst =
        foldMinOpt (b.map Prod.fst) (ranksOfFreqs fis) := by
  intro fis
  induction fis with
  | nil => intro b; rfl
  | cons fi rest ih =>
    intro b
    rw [List.foldl_cons, ih]
    rcases hf : fi.frequency with _ | r
    · have : scanFreqItem b fi = b := by simp [scanFreqItem, hf]
      rw [this]
      unfold ranksOfFreqs
      rw [List.filterMap_cons, hf]
    · rw [scanFreqItem_fst fi b r hf]
      unfold ranksOfFreqs foldMinOpt
      rw [List.filterMap_cons, hf, List.foldl_cons]

theorem foldMinOpt_some : ∀ (l : List Int) (x : Int),
    foldMinOpt (some x) l = some (l.foldl min x) := by
  intro l
  induction l with
  | nil => intro x; rfl
  | cons r rest ih =>
    intro x
    unfold foldMinOpt at ih ⊢
    rw [List.foldl_cons, List.foldl_cons]
    exact ih (min x r)

theorem foldMinOpt_eq_min? (l : List Int) : foldMinOpt none l = l.min? := by
  cases l with
  | nil => rfl
  | cons r rest =>
    unfold foldMinOpt
    rw [List.foldl_cons]
    have : minStep none r = some r := rfl
    rw [this]
    have h2 := foldMinOpt_some rest r
    unfold foldMinOpt at h2
    rw [h2]
    rfl

theorem foldl_scanEntry_fst_all (word : String) :
    ∀ (entries : List DictEntry), (∀ e ∈ entries, entryExactMatch word e = true) →
      ∀ b, (entries.foldl (scanEntry word) b).map Prod.fst =
        foldMinOpt (b.map Prod.fst)
          (entries.flatMap (fun e => ranksOfFreqs e.frequencies)) := by
  intro entries
  induction entries with
  | nil => intro _ b; rfl
  | cons e rest ih =>
    intro hall b
    rw [List.foldl_cons, List.flatMap_cons]
    have he : entryExactMatch word e = true := hall e (List.mem_cons_self e rest)
    have hsc : scanEntry word b e = e.frequencies.foldl scanFreqItem b := by
      unfold scanEntry
      rw [if_pos he]
    rw [hsc, ih (fun x hx => hall x (List.mem_cons_of_mem e hx)) _,
      foldl_scanFreqItem_fst]
    unfold foldMinOpt
    rw [List.foldl_append]

theorem bestFrequency_rank_min (word : String) (entries : List DictEntry) :
    (bestFrequency word entries).map Prod.fst = (matchingRanks word entries).min? := by
  unfold bestFrequency
  rw [foldl_scanEntry_filter word entries none]
  rw [foldl_scanEntry_fst_all word (entries.filter (entryExactMatch word))
    (fun e he => List.of_mem_filter he) none]
  exact foldMinOpt_eq_min? _

theorem foldl_scanFreqItem_mem :
    ∀ (fis : List FreqItem) (b : Option (Int × String)) (p : Int × String),
      fis.foldl scanFreqItem b = some p → b = some p ∨ p ∈ pairsOfFreqs fis := by
  intro fis
  induction fis with
  | nil => intro b p h; exact Or.inl h
  | cons fi rest ih =>
    intro b p h
    rw [List.foldl_cons] at h
    have hpairs : pairsOfFreqs (fi :: rest) =
        (fi.frequency.map (fun r => (r, fi.dictionary.getD ("Unknown")))).toList ++
          pairsOfFreqs rest := by
      unfold pairsOfFreqs
      rw [List.filterMap_cons]
      rcases hf : fi.frequency with _ | r
      · simp
      · simp
    rcases ih (scanFreqItem b fi) p h with h1 | h2
    · rcases hf : fi.frequency with _ | r
      · left
        simpa [scanFreqItem, hf] using h1
      · rcases b with _ | ⟨br, bs⟩
        · right
          rw [hpairs, hf]
          simp only [scanFreqItem, hf] at h1
          simp at h1
          simp [← h1]
        · by_cases hlt : r < br
          · right
            rw [hpairs, hf]
            simp only [scanFreqItem, hf] at h1
            rw [if_pos hlt] at h1
            simp at h1
            simp [← h1]
          · left
            simp only [scanFreqItem, hf] at h1
            rw [if_neg hlt] at h1
            exact h1
    · right
      rw [hpairs]
      exact List.mem_append_right _ h2

theorem foldl_scanEntry_mem_all (word : String) :
    ∀ (entries : List DictEntry), (∀ e ∈ entries, entryExactMatch word e = true) →
      ∀ b p, entries.foldl (scanEntry word) b = some p →
        b = some p ∨ p ∈ entries.flatMap (fun e => pairsOfFreqs e.frequencies) := by
  intro entries
  induction entries with
  | nil => intro _ b p h; exact Or.inl h
  | cons e rest ih =>
    intro hall b p h
    rw [List.foldl_cons] at h
    have he : entryExactMatch word e = true := hall e (List.mem_cons_self e rest)
    have hsc : scanEntry word b e = e.frequencies.foldl scanFreqItem b := by
      unfold scanEntry
      rw [if_pos he]
    rw [hsc] at h
    rcases ih (fun x hx => hall x (List.mem_cons_of_mem e hx)) _ p h with h1 | h2
    · rcases foldl_scanFreqItem_mem e.frequencies b p h1 with h3 | h4
      · exact Or.inl h3
      · right
        rw [List.flatMap_cons]
        exact List.mem_append_left _ h4
    · right
      rw [List.flatMap_cons]
      exact List.mem_append_right _ h2

theorem bestFrequency_mem (word : String) (entries : List DictEntry)
    (p : Int × String) (h : bestFrequency word entries = some p) :
    p ∈ matchingPairs word entries := by
  unfold bestFrequency at h
  rw [foldl_scanEntry_filter word entries none] at h
  rcases foldl_scanEntry_mem_all word (entries.filter (entryExactMatch word))
    (fun e he => List.of_mem_filter he) none p h with h1 | h2
  · exact absurd h1 (by simp)
  · exact h2

/-- C6: the star bucket assigned from a frequency rank `r` satisfies
`r ≤ 1500 → 5`, `1501 ≤ r ≤ 5000 → 4`, `5001 ≤ r ≤ 15000 → 3`,
`15001 ≤ r ≤ 30000 → 2`, `30001 ≤ r ≤ 60000 → 1`, `60001 ≤ r → 0`, and
`null → 0`; in particular 1500 ↦ 5, 1501 ↦ 4, 60000 ↦ 1, 60001 ↦ 0.  The
template filter `star_from_rank` computes the same bucket. -/
theorem star_bucket_boundaries :
    (∀ r : Int,
      (r ≤ 1500 → get_star_rating_from_rank (some r) = 5) ∧
      (1501 ≤ r ∧ r ≤ 5000 → get_star_rating_from_rank (some r) = 4) ∧
      (5001 ≤ r ∧ r ≤ 15000 → get_star_rating_from_rank (some r) = 3) ∧
      (15001 ≤ r ∧ r ≤ 30000 → get_star_rating_from_rank (some r) = 2) ∧
      (30001 ≤ r ∧ r ≤ 60000 → get_star_rating_from_rank (some r) = 1) ∧
      (60001 ≤ r → get_star_rating_from_rank (some r) = 0)) ∧
    get_star_rating_from_rank none = 0 ∧
    get_star_rating_from_rank (some 1500) = 5 ∧
    get_star_rating_from_rank (some 1501) = 4 ∧
    get_star_rating_from_rank (some 60000) = 1 ∧
    get_star_rating_from_rank (some 60001) = 0 ∧
    (∀ rank, star_from_rank_filter rank = get_star_rating_from_rank rank) := by
  refine ⟨?_, rfl, by decide, by decide, by decide, by decide, fun rank => rfl⟩
  intro r
  refine ⟨?_, ?_, ?_, ?_, ?_, ?_⟩ <;>
    · intro h
      simp only [get_star_rating_from_rank]
      split_ifs <;> omega

/-- Witness for C6 at concrete ranks inside each band. -/
theorem star_bucket_boundaries_witness :
    get_star_rating_from_rank (some 5000) = 4 ∧
      get_star_rating_from_rank (some 30001) = 1 :=
  ⟨((star_bucket_boundaries.1 5000).2.1) (by decide),
    ((star_bucket_boundaries.1 30001).2.2.2.2.1) (by decide)⟩

/-- C4: the frequency resolver considers only dictionary entries with a
headword whose term or reading exactly equals the word (filtering the response
to the matching entries changes nothing); the resolved rank is the numerically
lowest rank attached to those entries; the resolved (rank, source) pair comes
from one of those entries; and in the spec's 猫 scenario the resolver returns
rank 500 from source X — the non-matching headword 猫科's lower rank 10 does
not leak in. -/
theorem frequency_exact_match (word : String) (entries : List DictEntry) :
    bestFrequency word entries = bestFrequency word (entries.filter (entryExactMatch word)) ∧
    (bestFrequency word entries).map Prod.fst = (matchingRanks word entries).min? ∧
    (∀ r s, bestFrequency word entries = some (r, s) → (r, s) ∈ matchingPairs word entries) ∧
    get_yomitan_frequency_data ("猫") [] (FreqApiResult.ok 200 (some catScenarioEntries)) =
      ({ rank := some 500, source := some ("X"), found := true }, [("猫", 500, "X")]) := by
  refine ⟨?_, bestFrequency_rank_min word entries, ?_, by decide⟩
  · unfold bestFrequency
    exact foldl_scanEntry_filter word entries none
  · intro r s h
    exact bestFrequency_mem word entries (r, s) h

/-- Witness for C4: instantiating the membership clause in the 猫 scenario. -/
theorem frequency_exact_match_witness :
    (500, ("X" : String)) ∈ matchingPairs ("猫") catScenarioEntries :=
  (frequency_exact_match ("猫") catScenarioEntries).2.2.1 500 ("X") (by decide)

theorem sumCounts_insertEntry (acc : List WordEntry) (e : WordEntry) :
    sumCounts (insertEntry acc e) = sumCounts acc + e.count := by
  induction acc with
  | nil => simp [insertEntry, sumCounts]
  | cons x xs ih =>
    unfold insertEntry
    by_cases h : (x.word == e.word) = true
    · rw [if_pos h]
      simp only [sumCounts, List.map_cons, List.sum_cons]
      omega
    · rw [if_neg h]
      simp only [sumCounts, List.map_cons, List.sum_cons] at ih ⊢
      omega

theorem sumCounts_foldl_insertEntry :
    ∀ (l acc : List WordEntry),
      sumCounts (l.foldl insertEntry acc) = sumCounts acc + sumCounts l := by
  intro l
  induction l with
  | nil => intro acc; simp [sumCounts]
  | cons e rest ih =>
    intro acc
    rw [List.foldl_cons, ih, sumCounts_insertEntry]
    simp only [sumCounts, List.map_cons, List.sum_cons]
    omega

/-- C8: deduplication conserves occurrence counts — the sum of the `count`
fields over a word-entry list is unchanged by `deduplicate_word_list`.  The
source applies the same function to each category list independently, so the
conservation holds for each category list. -/
theorem dedup_conservation (l : List WordEntry) :
    sumCounts (deduplicate_word_list l) = sumCounts l := by
  unfold deduplicate_word_list
  rw [sumCounts_foldl_insertEntry]
  simp [sumCounts]

theorem sumCounts_sortByCountDesc (l : List WordEntry) :
    sumCounts (sortByCountDesc l) = sumCounts l := by
  unfold sortByCountDesc sumCounts
  exact List.Perm.sum_eq ((List.mergeSort_perm l _).map (fun e => e.count))

theorem classifyLoop_eq (freq : String → FreqRecord) (vocab ignored : List String) :
    ∀ wcs : List (String × Nat),
      classifyLoop freq vocab ignored wcs =
        ((wcs.filter (fun p => !ignored.contains p.1 && vocab.contains p.1)).map
           (fun p => mkWordEntry freq vocab ignored p.1 p.2),
         (wcs.filter (fun p => !ignored.contains p.1 && !vocab.contains p.1)).map
           (fun p => mkWordEntry freq vocab ignored p.1 p.2),
         (wcs.filter (fun p => ignored.contains p.1)).map
           (fun p => mkWordEntry freq vocab ignored p.1 p.2)) := by
  intro wcs
  induction wcs with
  | nil => rfl
  | cons wc rest ih =>
    obtain ⟨w, c⟩ := wc
    cases hi : ignored.contains w
    · have hi2 : w ∉ ignored := by simpa using hi
      cases hv : vocab.contains w
      · have hv2 : w ∉ vocab := by simpa using hv
        simp [classifyLoop, hi, hv, hi2, hv2, ih, List.filter_cons]
      · have hv2 : w ∈ vocab := by simpa using hv
        simp [classifyLoop, hi, hv, hi2, hv2, ih, List.filter_cons]
    · have hi2 : w ∈ ignored := by simpa using hi
      simp [classifyLoop, hi, hi2, ih, List.filter_cons]

theorem classifyLoop_fst (freq : String → FreqRecord) (vocab ignored : List String)
    (wcs : List (String × Nat)) :
    (classifyLoop freq vocab ignored wcs).1 =
      (wcs.filter (fun p => !ignored.contains p.1 && vocab.contains p.1)).map
        (fun p => mkWordEntry freq vocab ignored p.1 p.2) := by
  rw [classifyLoop_eq]

theorem classifyLoop_snd_fst (freq : String → FreqRecord) (vocab ignored : List String)
    (wcs : List (String × Nat)) :
    (classifyLoop freq vocab ignored wcs).2.1 =
      (wcs.filter (fun p => !ignored.contains p.1 && !vocab.contains p.1)).map
        (fun p => mkWordEntry freq vocab ignored p.1 p.2) := by
  rw [classifyLoop_eq]

theorem classifyLoop_snd_snd (freq : String → FreqRecord) (vocab ignored : List String)
    (wcs : List (String × Nat)) :
    (classifyLoop freq vocab ignored wcs).2.2 =
      (wcs.filter (fun p => ignored.contains p.1)).map
        (fun p => mkWordEntry freq vocab ignored p.1 p.2) := by
  rw [classifyLoop_eq]

theorem sumCounts_map_mk (freq : String → FreqRecord) (vocab ignored : List String)
    (l : List (String × Nat)) :
    sumCounts (l.map (fun p => mkWordEntry freq vocab ignored p.1 p.2)) =
      (l.map (fun p => p.2)).sum := by
  unfold sumCounts
  rw [List.map_map]
  rfl

theorem analyze_known_count (freq : String → FreqRecord) (vocab ignored : List String)
    (wcs : List (String × Nat)) :
    (analyze_text_vocabulary freq vocab ignored wcs).known_word_count =
      knownOccurrences vocab ignored wcs := by
  show sumCounts (sortByCountDesc (deduplicate_word_list
    (classifyLoop freq vocab ignored wcs).1)) = _
  rw [classifyLoop_fst, sumCounts_sortByCountDesc, dedup_conservation, sumCounts_map_mk]
  rfl

theorem analyze_unknown_count (freq : String → FreqRecord) (vocab ignored : List String)
    (wcs : List (String × Nat)) :
    (analyze_text_vocabulary freq vocab ignored wcs).unknown_word_count =
      unknownOccurrences vocab ignored wcs := by
  show sumCounts (sortByCountDesc (deduplicate_word_list
    (classifyLoop freq vocab ignored wcs).2.1)) = _
  rw [classifyLoop_snd_fst, sumCounts_sortByCountDesc, dedup_conservation, sumCounts_map_mk]
  rfl

theorem analyze_rate_def (freq : String → FreqRecord) (vocab ignored : List String)
    (wcs : List (String × Nat)) :
    (analyze_text_vocabulary freq vocab ignored wcs).comprehension_rate =
      (if 0 < (analyze_text_vocabulary freq vocab ignored wcs).known_word_count +
            (analyze_text_vocabulary freq vocab ignored wcs).unknown_word_count
       then ((analyze_text_vocabulary freq vocab ignored wcs).known_word_count : ℚ) /
         (((analyze_text_vocabulary freq vocab ignored wcs).known_word_count +
           (analyze_text_vocabulary freq vocab ignored wcs).unknown_word_count : Nat) : ℚ) * 100
       else 0) := rfl

/-- C2 amended: for every analysis, `known_word_count`/`unknown_word_count`
are the known/unknown occurrence totals (ignored occurrences excluded from
both), the comprehension rate is `known / (known + unknown) × 100` (0 when
the denominator is 0), the difficulty level is derived from that rate, and in
the 80-known / 20-unknown scenario the rate is 80.0 with difficulty level
`3★ Intermediate` (the source's label for the ≥75% band) — not `Elementary`,
which the source assigns (as `2★ Elementary`) only at rates ≥85%. -/
theorem comprehension_rate_formula (freq : String → FreqRecord)
    (vocab ignored : List String) (wcs : List (String × Nat)) :
    (analyze_text_vocabulary freq vocab ignored wcs).known_word_count =
        knownOccurrences vocab ignored wcs ∧
    (analyze_text_vocabulary freq vocab ignored wcs).unknown_word_count =
        unknownOccurrences vocab ignored wcs ∧
    (analyze_text_vocabulary freq vocab ignored wcs).comprehension_rate =
      (if knownOccurrences vocab ignored wcs + unknownOccurrences vocab ignored wcs = 0
       then 0
       else (knownOccurrences vocab ignored wcs : ℚ) /
         ((knownOccurrences vocab ignored wcs : ℚ) + (unknownOccurrences vocab ignored wcs : ℚ))
           * 100) ∧
    (analyze_text_vocabulary freq vocab ignored wcs).difficulty_level =
      calculate_difficulty_level
        (analyze_text_vocabulary freq vocab ignored wcs).comprehension_rate ∧
    (knownOccurrences vocab ignored wcs = 80 → unknownOccurrences vocab ignored wcs = 20 →
      (analyze_text_vocabulary freq vocab ignored wcs).comprehension_rate = 80 ∧
      (analyze_text_vocabulary freq vocab ignored wcs).difficulty_level =
        ("3★ Intermediate")) := by
  have hk := analyze_known_count freq vocab ignored wcs
  have hu := analyze_unknown_count freq vocab ignored wcs
  have hrate : (analyze_text_vocabulary freq vocab ignored wcs).comprehension_rate =
      (if knownOccurrences vocab ignored wcs + unknownOccurrences vocab ignored wcs = 0
       then 0
       else (knownOccurrences vocab ignored wcs : ℚ) /
         ((knownOccurrences vocab ignored wcs : ℚ) + (unknownOccurrences vocab ignored wcs : ℚ))
           * 100) := by
    rw [analyze_rate_def, hk, hu]
    by_cases h : knownOccurrences vocab ignored wcs + unknownOccurrences vocab ignored wcs = 0
    · rw [if_neg (by omega), if_pos h]
    · rw [if_pos (by omega), if_neg h]
      push_cast
      ring
  refine ⟨hk, hu, hrate, rfl, ?_⟩
  intro h80 h20
  have hr80 : (analyze_text_vocabulary freq vocab ignored wcs).comprehension_rate = 80 := by
    rw [hrate, h80, h20]
    norm_num
  refine ⟨hr80, ?_⟩
  have hd : (analyze_text_vocabulary freq vocab ignored wcs).difficulty_level =
      calculate_difficulty_level
        (analyze_text_vocabulary freq vocab ignored wcs).comprehension_rate := rfl
  rw [hd, hr80]
  norm_num [calculate_difficulty_level]

/-- C2 counterexample: at 80 known, 20 unknown, 100 ignored occurrences the
analysis yields comprehension rate 80.0 but difficulty level `3★ Intermediate`,
not `Elementary` (by the source's own ≥85% band, 80% is not Elementary). -/
theorem comprehension_difficulty_counterexample :
    (analyze_text_vocabulary noFreq ["k"] ["i"] c2WordCounts).comprehension_rate = 80 ∧
    (analyze_text_vocabulary noFreq ["k"] ["i"] c2WordCounts).difficulty_level =
      ("3★ Intermediate") ∧
    ("3★ Intermediate" : String) ≠ ("Elementary") ∧
    ("3★ Intermediate" : String) ≠ ("2★ Elementary") := by
  have h := (comprehension_rate_formula noFreq ["k"] ["i"] c2WordCounts).2.2.2.2
    (by decide) (by decide)
  exact ⟨h.1, h.2, by decide, by decide⟩

/-- Witness for the amended C2 at the spec's concrete occurrence totals. -/
theorem comprehension_rate_formula_witness :
    (analyze_text_vocabulary noFreq ["k"] ["i"] c2WordCounts).comprehension_rate = 80 ∧
    (analyze_text_vocabulary noFreq ["k"] ["i"] c2WordCounts).difficulty_level =
      ("3★ Intermediate") :=
  (comprehension_rate_formula noFreq ["k"] ["i"] c2WordCounts).2.2.2.2
    (by decide) (by decide)

theorem insertEntry_append (acc : List WordEntry) (e : WordEntry)
    (h : ∀ x ∈ acc, x.word ≠ e.word) : insertEntry acc e = acc ++ [e] := by
  induction acc with
  | nil => rfl
  | cons x xs ih =>
    have hx : (x.word == e.word) = false := by
      simpa using h x (List.mem_cons_self x xs)
    unfold insertEntry
    rw [if_neg (by simp [hx])]
    rw [ih (fun y hy => h y (List.mem_cons_of_mem x hy))]
    rfl

theorem foldl_insertEntry_append :
    ∀ (l acc : List WordEntry),
      (∀ x ∈ acc, ∀ y ∈ l, x.word ≠ y.word) →
      ((l.map (fun e => e.word)).Nodup) →
      l.foldl insertEntry acc = acc ++ l := by
  intro l
  induction l with
  | nil => intro acc _ _; simp
  | cons e rest ih =>
    intro acc hd hnd
    rw [List.foldl_cons,
      insertEntry_append acc e (fun x hx => hd x hx e (List.mem_cons_self e rest))]
    have hnd2 : ((rest.map (fun x => x.word)).Nodup) := by
      simp only [List.map_cons, List.nodup_cons] at hnd
      exact hnd.2
    have hmem : e.word ∉ rest.map (fun x => x.word) := by
      simp only [List.map_cons, List.nodup_cons] at hnd
      exact hnd.1
    have hd2 : ∀ x ∈ acc ++ [e], ∀ y ∈ rest, x.word ≠ y.word := by
      intro x hx y hy
      rcases List.mem_append.mp hx with h1 | h2
      · exact hd x h1 y (List.mem_cons_of_mem e hy)
      · have hx2 : x = e := by simpa using h2
        subst hx2
        intro hc
        exact hmem (List.mem_map.mpr ⟨y, hy, hc.symm⟩)
    rw [ih (acc ++ [e]) hd2 hnd2]
    simp

theorem dedup_of_nodup (l : List WordEntry)
    (h : (l.map (fun e => e.word)).Nodup) : deduplicate_word_list l = l := by
  unfold deduplicate_word_list
  rw [foldl_insertEntry_append l [] (by simp) h]
  simp

theorem countP_split3_base {α : Type} (f g h base : α → Bool)
    (hex : ∀ a, (if f a then 1 else 0) + (if g a then 1 else 0) + (if h a then 1 else 0)
      = (if base a then 1 else 0)) :
    ∀ l : List α, l.countP f + l.countP g + l.countP h = l.countP base := by
  intro l
  induction l with
  | nil => rfl
  | cons x xs ih =>
    simp only [List.countP_cons]
    have := hex x
    omega

theorem countP_split3_length {α : Type} (f g h : α → Bool)
    (hex : ∀ a, (if f a then 1 else 0) + (if g a then 1 else 0) + (if h a then 1 else 0) = 1) :
    ∀ l : List α, l.countP f + l.countP g + l.countP h = l.length := by
  intro l
  induction l with
  | nil => rfl
  | cons x xs ih =>
    simp only [List.countP_cons, List.length_cons]
    have := hex x
    omega

theorem mapWord_map_mk (freq : String → FreqRecord) (vocab ignored : List String)
    (l : List (String × Nat)) :
    ((l.map (fun p => mkWordEntry freq vocab ignored p.1 p.2)).map (fun e => e.word)) =
      l.map (fun p => p.1) := by
  rw [List.map_map]
  rfl

theorem nodup_words_filter (freq : String → FreqRecord) (vocab ignored : List String)
    (wcs : List (String × Nat)) (q : String × Nat → Bool)
    (hnd : (wcs.map (fun p => p.1)).Nodup) :
    (((wcs.filter q).map (fun p => mkWordEntry freq vocab ignored p.1 p.2)).map
      (fun e => e.word)).Nodup := by
  rw [mapWord_map_mk]
  exact List.Nodup.sublist (List.Sublist.map (fun p => p.1) (List.filter_sublist wcs)) hnd

theorem filter_count_category (freq : String → FreqRecord) (vocab ignored : List String)
    (wcs : List (String × Nat)) (q : String × Nat → Bool) (w : String)
    (hnd : (wcs.map (fun p => p.1)).Nodup) :
    ((sortByCountDesc (deduplicate_word_list
        ((wcs.filter q).map (fun p => mkWordEntry freq vocab ignored p.1 p.2)))).filter
      (fun e => e.word == w)).length =
      wcs.countP (fun p => (p.1 == w) && q p) := by
  rw [← List.countP_eq_length_filter]
  unfold sortByCountDesc
  rw [List.Perm.countP_eq _ (List.mergeSort_perm _ _)]
  rw [dedup_of_nodup _ (nodup_words_filter freq vocab ignored wcs q hnd)]
  rw [List.countP_map, List.countP_filter]
  rfl

theorem filter_count_category_nodedup (freq : String → FreqRecord)
    (vocab ignored : List String)
    (wcs : List (String × Nat)) (q : String × Nat → Bool) (w : String) :
    ((sortByCountDesc
        ((wcs.filter q).map (fun p => mkWordEntry freq vocab ignored p.1 p.2))).filter
      (fun e => e.word == w)).length =
      wcs.countP (fun p => (p.1 == w) && q p) := by
  rw [← List.countP_eq_length_filter]
  unfold sortByCountDesc
  rw [List.Perm.countP_eq _ (List.mergeSort_perm _ _)]
  rw [List.countP_map, List.countP_filter]
  rfl

theorem length_category (freq : String → FreqRecord) (vocab ignored : List String)
    (wcs : List (String × Nat)) (q : String × Nat → Bool)
    (hnd : (wcs.map (fun p => p.1)).Nodup) :
    (sortByCountDesc (deduplicate_word_list
        ((wcs.filter q).map (fun p => mkWordEntry freq vocab ignored p.1 p.2)))).length =
      wcs.countP q := by
  unfold sortByCountDesc
  rw [List.length_mergeSort]
  rw [dedup_of_nodup _ (nodup_words_filter freq vocab ignored wcs q hnd)]
  rw [List.length_map, ← List.countP_eq_length_filter]

theorem length_category_nodedup (freq : String → FreqRecord) (vocab ignored : List String)
    (wcs : List (String × Nat)) (q : String × Nat → Bool) :
    (sortByCountDesc
        ((wcs.filter q).map (fun p => mkWordEntry freq vocab ignored p.1 p.2))).length =
      wcs.countP q := by
  unfold sortByCountDesc
  rw [List.length_mergeSort]
  rw [List.length_map, ← List.countP_eq_length_filter]

theorem analyze_known_words_eq (freq : String → FreqRecord) (vocab ignored : List String)
    (wcs : List (String × Nat)) :
    (analyze_text_vocabulary freq vocab ignored wcs).known_words =
      sortByCountDesc (deduplicate_word_list
        ((wcs.filter (fun p => !ignored.contains p.1 && vocab.contains p.1)).map
          (fun p => mkWordEntry freq vocab ignored p.1 p.2))) := by
  show sortByCountDesc (deduplicate_word_list (classifyLoop freq vocab ignored wcs).1) = _
  rw [classifyLoop_fst]

theorem analyze_unknown_words_eq (freq : String → FreqRecord) (vocab ignored : List String)
    (wcs : List (String × Nat)) :
    (analyze_text_vocabulary freq vocab ignored wcs).unknown_words =
      sortByCountDesc (deduplicate_word_list
        ((wcs.filter (fun p => !ignored.contains p.1 && !vocab.contains p.1)).map
          (fun p => mkWordEntry freq vocab ignored p.1 p.2))) := by
  show sortByCountDesc (deduplicate_word_list (classifyLoop freq vocab ignored wcs).2.1) = _
  rw [classifyLoop_snd_fst]

theorem analyze_ignored_words_eq (freq : String → FreqRecord) (vocab ignored : List String)
    (wcs : List (String × Nat)) :
    (analyze_text_vocabulary freq vocab ignored wcs).ignored_words =
      sortByCountDesc
        ((wcs.filter (fun p => ignored.contains p.1)).map
          (fun p => mkWordEntry freq vocab ignored p.1 p.2)) := by
  show sortByCountDesc (classifyLoop freq vocab ignored wcs).2.2 = _
  rw [classifyLoop_snd_snd]

/-- C5: a word in both the vocabulary and ignored sets is classified Ignored;
every unique word's entry lands in exactly one of the known / unknown /
ignored result lists; and (with distinct unique words, as `Counter`
guarantees) the known, unknown, and ignored unique-word counts after
deduplication sum to the total unique-word count. -/
theorem classification_partition (freq : String → FreqRecord)
    (vocab ignored : List String) (wcs : List (String × Nat))
    (hnd : (wcs.map (fun p => p.1)).Nodup) :
    (∀ w, w ∈ vocab → w ∈ ignored → classifyWord vocab ignored w = WordCategory.ignored) ∧
    (∀ w, w ∈ wcs.map (fun p => p.1) →
      ((analyze_text_vocabulary freq vocab ignored wcs).known_words.filter
          (fun e => e.word == w)).length
      + ((analyze_text_vocabulary freq vocab ignored wcs).unknown_words.filter
          (fun e => e.word == w)).length
      + ((analyze_text_vocabulary freq vocab ignored wcs).ignored_words.filter
          (fun e => e.word == w)).length = 1) ∧
    ((analyze_text_vocabulary freq vocab ignored wcs).known_words.length
      + (analyze_text_vocabulary freq vocab ignored wcs).unknown_words.length
      + (analyze_text_vocabulary freq vocab ignored wcs).ignored_words.length
      = wcs.length) := by
  refine ⟨?_, ?_, ?_⟩
  · intro w hv hi
    simp [classifyWord, hi, hv]
  · intro w hw
    rw [analyze_known_words_eq, analyze_unknown_words_eq, analyze_ignored_words_eq]
    rw [filter_count_category freq vocab ignored wcs _ w hnd,
      filter_count_category freq vocab ignored wcs _ w hnd,
      filter_count_category_nodedup freq vocab ignored wcs _ w]
    rw [countP_split3_base
      (fun p => (p.1 == w) && (!ignored.contains p.1 && vocab.contains p.1))
      (fun p => (p.1 == w) && (!ignored.contains p.1 && !vocab.contains p.1))
      (fun p => (p.1 == w) && ignored.contains p.1)
      (fun p => (p.1 == w)) ?hex wcs]
    · have hm : wcs.countP (fun p => (p.1 == w)) =
          (wcs.map (fun p => p.1)).countP (fun s => s == w) := by
        rw [List.countP_map]
        rfl
      rw [hm]
      have hc : (wcs.map (fun p => p.1)).countP (fun s => s == w) =
          (wcs.map (fun p => p.1)).count w := rfl
      rw [hc]
      exact List.count_eq_one_of_mem hnd hw
    case hex =>
      intro a
      cases h1 : (a.1 == w) <;> cases h2 : ignored.contains a.1 <;>
        cases h3 : vocab.contains a.1 <;>
        simp only [h1, h2, h3, Bool.true_and, Bool.false_and, Bool.and_true,
          Bool.and_false, Bool.not_true, Bool.not_false] <;> decide
  · rw [analyze_known_words_eq, analyze_unknown_words_eq, analyze_ignored_words_eq]
    rw [length_category freq vocab ignored wcs _ hnd,
      length_category freq vocab ignored wcs _ hnd,
      length_category_nodedup freq vocab ignored wcs _]
    refine countP_split3_length
      (fun p => !ignored.contains p.1 && vocab.contains p.1)
      (fun p => !ignored.contains p.1 && !vocab.contains p.1)
      (fun p => ignored.contains p.1) ?_ wcs
    intro a
    cases h2 : ignored.contains a.1 <;> cases h3 : vocab.contains a.1 <;>
      simp only [h2, h3, Bool.true_and, Bool.false_and, Bool.and_true,
        Bool.and_false, Bool.not_true, Bool.not_false] <;> decide

/-- Witness for C5 at a word present in both sets. -/
theorem classification_partition_witness :
    classifyWord ["b"] ["b"] ("b") = WordCategory.ignored ∧
    ((analyze_text_vocabulary noFreq ["b"] ["b"] [("b", 1)]).known_words.length
      + (analyze_text_vocabulary noFreq ["b"] ["b"] [("b", 1)]).unknown_words.length
      + (analyze_text_vocabulary noFreq ["b"] ["b"] [("b", 1)]).ignored_words.length
      = 1) :=
  ⟨(classification_partition noFreq ["b"] ["b"] [("b", 1)] (by decide)).1 ("b")
      (by decide) (by decide),
    (classification_partition noFreq ["b"] ["b"] [("b", 1)] (by decide)).2.2⟩
